import Mathlib

/-!
Verification of the thruster-selection engine.

The numeric pipeline of `src/calculator.py` and `src/selector.py` works on
Python floats, using `float("inf")` as a sentinel for physically impossible
configurations.  We model float values by the type `F` below: a finite real,
positive or negative infinity, or NaN.  Rounding and overflow of finite
arithmetic are idealised (finite floats are reals), while the special values
follow IEEE-754 semantics, which is what the specification's claims about
infinity propagation and NaN are about.  Operations that raise in Python
(`int()` of an infinity or NaN raises OverflowError/ValueError, division by
the float zero raises ZeroDivisionError) are modelled as `Option`-valued,
with `none` standing for the raised exception.
-/

namespace ThrustSelector

open Classical

noncomputable section

/-- Model of a Python float value: a finite real, an infinity, or NaN. -/
inductive F where
  | fin : ℝ → F
  | inf : F
  | ninf : F
  | nan : F

/-- IEEE-754 addition on float values (finite arithmetic idealised as real). -/
def F.add : F → F → F
  | .fin a, .fin b => .fin (a + b)
  | .nan, _ => .nan
  | _, .nan => .nan
  | .inf, .ninf => .nan
  | .ninf, .inf => .nan
  | .inf, _ => .inf
  | _, .inf => .inf
  | .ninf, _ => .ninf
  | _, .ninf => .ninf

/-- IEEE-754 multiplication on float values. -/
def F.mul : F → F → F
  | .fin a, .fin b => .fin (a * b)
  | .nan, _ => .nan
  | _, .nan => .nan
  | .inf, .fin b => if 0 < b then .inf else if b < 0 then .ninf else .nan
  | .fin a, .inf => if 0 < a then .inf else if a < 0 then .ninf else .nan
  | .inf, .inf => .inf
  | .inf, .ninf => .ninf
  | .ninf, .inf => .ninf
  | .ninf, .ninf => .inf
  | .ninf, .fin b => if 0 < b then .ninf else if b < 0 then .inf else .nan
  | .fin a, .ninf => if 0 < a then .ninf else if a < 0 then .inf else .nan

/-- Python float division.  Dividing by the float zero raises
ZeroDivisionError (modelled as `none`) whatever the numerator is; otherwise
the IEEE-754 quotient is produced (`inf / inf = NaN` and so on). -/
def F.div : F → F → Option F
  | a, .fin y =>
      if y = 0 then none
      else some (match a with
        | .fin x => .fin (x / y)
        | .inf => if 0 < y then .inf else .ninf
        | .ninf => if 0 < y then .ninf else .inf
        | .nan => .nan)
  | .nan, _ => some .nan
  | _, .nan => some .nan
  | .fin _, .inf => some (.fin 0)
  | .fin _, .ninf => some (.fin 0)
  | .inf, .inf => some .nan
  | .inf, .ninf => some .nan
  | .ninf, .inf => some .nan
  | .ninf, .ninf => some .nan

/-- IEEE-754 strict comparison: any comparison with NaN is false. -/
def F.blt : F → F → Bool
  | .fin a, .fin b => decide (a < b)
  | .fin _, .inf => true
  | .ninf, .fin _ => true
  | .ninf, .inf => true
  | _, _ => false

/-- IEEE-754 non-strict comparison: any comparison with NaN is false. -/
def F.ble : F → F → Bool
  | .fin a, .fin b => decide (a ≤ b)
  | .fin _, .inf => true
  | .ninf, .nan => false
  | .ninf, _ => true
  | .inf, .inf => true
  | _, _ => false

/-- Truncation toward zero, the behaviour of Python's `int()` on a finite
float. -/
def truncF (x : ℝ) : ℤ := if 0 ≤ x then Int.floor x else Int.ceil x

/-- Python's `int()` on a float: truncation toward zero for finite values;
an infinity raises OverflowError and NaN raises ValueError (both `none`). -/
def F.toInt : F → Option ℤ
  | .fin r => some (truncF r)
  | _ => none

/-- Thruster record from `src/models.py` (field `type` renamed to `ty`). -/
structure Thruster where
  id : String
  name : String
  manufacturer : String
  ty : String
  thrust_mN : ℝ
  isp_s : ℝ
  power_W : ℝ
  mass_kg : ℝ
  trl : ℤ
  thrust_efficiency : ℝ
  propellant : String

/-- Derived property from `src/models.py`: thrust in Newtons. -/
def Thruster.thrust_N (t : Thruster) : ℝ := t.thrust_mN / 1000

/-- Mission requirements record from `src/models.py`. -/
structure MissionRequirements where
  delta_v_ms : ℝ
  satellite_dry_mass_kg : ℝ
  available_power_W : ℝ
  mass_budget_kg : ℝ
  min_trl : ℤ
  max_duty_cycle : ℝ

/-- Infeasibility reason, one constructor per reason string produced by
`check_feasibility` in `src/calculator.py`.  The Python code emits formatted
strings; the specification states that the exact wording is a display
concern, so each constructor carries the numeric values the string embeds. -/
inductive Reason where
  | trl : ℤ → ℤ → Reason
  | power : ℝ → ℝ → ℝ → Reason
  | isp : Reason
  | thrust : Reason
  | massBudget : F → ℝ → Reason
  | fuelRatio : F → Reason

/-- Performance record from `src/models.py`. -/
structure ThrusterPerformance where
  thruster : Thruster
  propellant_mass_kg : F
  total_mass_kg : F
  mission_duration_days : F
  num_burns_estimate : ℤ
  fuel_ratio_percent : F
  is_feasible : Bool
  infeasibility_reasons : List Reason
  mass_score : F
  time_score : F
  combined_score : F

/-- Standard gravity constant from `src/calculator.py`. -/
def G0 : ℝ := 9.81

/-- Seconds per day constant from `src/calculator.py`. -/
def SECONDS_PER_DAY : ℝ := 86400

/-- Tsiolkovsky propellant mass, from `calculate_propellant_mass` in
`src/calculator.py`.  The inputs reaching it in the pipeline are plain
finite floats, so they are taken as reals; the result can be the infinity
sentinel. -/
def calculate_propellant_mass (delta_v_ms isp_s dry_mass_kg : ℝ) : F :=
  if isp_s ≤ 0 ∨ dry_mass_kg ≤ 0 then F.inf
  else F.fin (dry_mass_kg * (Real.exp (delta_v_ms / (isp_s * G0)) - 1))

/-- Mission duration in days, from `calculate_mission_duration` in
`src/calculator.py`.  The propellant argument can be the infinity sentinel,
hence has type `F`; the two float divisions are `Option`-valued. -/
def calculate_mission_duration (thrust_N isp_s : ℝ) (propellant_kg : F) :
    Option F :=
  if thrust_N ≤ 0 ∨ isp_s ≤ 0 ∨ F.ble propellant_kg (F.fin 0) then some F.inf
  else
    (F.div (F.mul propellant_kg (F.fin (isp_s * G0))) (F.fin thrust_N)).bind
      (fun duration_seconds => F.div duration_seconds (F.fin SECONDS_PER_DAY))

/-- Mass breakdown, from `calculate_mass_breakdown` in `src/calculator.py`:
dry mass with thruster, propellant mass, total mass and fuel ratio. -/
def calculate_mass_breakdown (t : Thruster) (r : MissionRequirements) :
    Option (ℝ × F × F × F) :=
  let dry_mass_with_thruster := r.satellite_dry_mass_kg + t.mass_kg
  let propellant_mass :=
    calculate_propellant_mass r.delta_v_ms t.isp_s dry_mass_with_thruster
  let total_mass := F.add (F.fin dry_mass_with_thruster) propellant_mass
  (if F.blt (F.fin 0) total_mass then F.div propellant_mass total_mass
   else some F.inf).map
    (fun fuel_ratio =>
      (dry_mass_with_thruster, propellant_mass, total_mass, fuel_ratio))

/-- Burn-count estimate, from `estimate_number_of_burns` in
`src/calculator.py`.  The Python code converts the float orbit count with
`int(...)`, which raises on an infinite or NaN value: the result is
therefore `Option`-valued. -/
def estimate_number_of_burns (mission_duration_days : F)
    (thruster_power_W available_power_W : ℝ) : Option ℤ :=
  let total_orbits := F.mul mission_duration_days (F.fin 15)
  if thruster_power_W > available_power_W then
    F.toInt (F.mul total_orbits (F.fin 2))
  else
    ((F.div total_orbits (F.fin 10)).bind F.toInt).map (fun n => max 1 n)

/-- Feasibility check, from `check_feasibility` in `src/calculator.py`:
six independent checks appending to the reason list in a fixed order. -/
def check_feasibility (t : Thruster) (r : MissionRequirements) :
    Option (Bool × List Reason) :=
  let reasons : List Reason := []
  let reasons :=
    if t.trl < r.min_trl then reasons ++ [Reason.trl t.trl r.min_trl]
    else reasons
  let max_acceptable_power := r.available_power_W * r.max_duty_cycle
  let reasons :=
    if t.power_W > max_acceptable_power then
      reasons ++ [Reason.power t.power_W r.max_duty_cycle max_acceptable_power]
    else reasons
  let reasons := if t.isp_s ≤ 0 then reasons ++ [Reason.isp] else reasons
  let reasons := if t.thrust_N ≤ 0 then reasons ++ [Reason.thrust] else reasons
  (calculate_mass_breakdown t r).map (fun x =>
    let total_mass := x.2.2.1
    let fuel_ratio := x.2.2.2
    let reasons :=
      if F.blt (F.fin r.mass_budget_kg) total_mass then
        reasons ++ [Reason.massBudget total_mass r.mass_budget_kg]
      else reasons
    let reasons :=
      if F.blt (F.fin 0.5) fuel_ratio then reasons ++ [Reason.fuelRatio fuel_ratio]
      else reasons
    (reasons.isEmpty, reasons))

/-- Full evaluation, from `evaluate_thruster` in `src/calculator.py`.
Python propagates exceptions from the burn-count `int()` conversion and the
score divisions; the model returns `none` in those cases. -/
def evaluate_thruster (t : Thruster) (r : MissionRequirements)
    (mass_weight time_weight : ℝ) : Option ThrusterPerformance :=
  (calculate_mass_breakdown t r).bind fun x =>
  (calculate_mission_duration t.thrust_N t.isp_s x.2.1).bind fun mission_duration =>
  (estimate_number_of_burns mission_duration t.power_W r.available_power_W).bind
    fun num_burns =>
  (check_feasibility t r).bind fun feas =>
  (F.div x.2.2.1 (F.fin r.mass_budget_kg)).bind fun mass_score =>
  (F.div mission_duration (F.fin 365)).bind fun time_score =>
  some
    { thruster := t
      propellant_mass_kg := x.2.1
      total_mass_kg := x.2.2.1
      mission_duration_days := mission_duration
      num_burns_estimate := num_burns
      fuel_ratio_percent := F.mul x.2.2.2 (F.fin 100)
      is_feasible := feas.1
      infeasibility_reasons := feas.2
      mass_score := mass_score
      time_score := time_score
      combined_score :=
        F.add (F.mul (F.fin mass_weight) mass_score)
          (F.mul (F.fin time_weight) time_score) }

/-- Stable insertion of a performance record into a list ascending by
combined score, placing it before the first element it does not strictly
follow.  Together with `sortPerfs` this models Python's stable
`list.sort(key=lambda x: x.combined_score)`: on score lists that are
totally preordered by the float comparison both produce the unique
stable ascending ordering. -/
def insertPerf (x : ThrusterPerformance) :
    List ThrusterPerformance → List ThrusterPerformance
  | [] => [x]
  | y :: ys =>
      if F.ble x.combined_score y.combined_score then x :: y :: ys
      else y :: insertPerf x ys

/-- Stable ascending sort by combined score (model of `results.sort`). -/
def sortPerfs : List ThrusterPerformance → List ThrusterPerformance
  | [] => []
  | x :: xs => insertPerf x (sortPerfs xs)

/-- Evaluation-and-filter loop of `select_thrusters` in `src/selector.py`:
evaluates the candidates in input order, keeping a record when
`show_infeasible or performance.is_feasible` holds.  An exception from
`evaluate_thruster` propagates (`none`). -/
def select_go (r : MissionRequirements) (ts : List Thruster)
    (mass_weight time_weight : ℝ) (show_infeasible : Bool) :
    Option (List ThrusterPerformance) :=
  match ts with
  | [] => some []
  | t :: rest =>
      (evaluate_thruster t r mass_weight time_weight).bind fun p =>
      (select_go r rest mass_weight time_weight show_infeasible).map fun l =>
      if show_infeasible || p.is_feasible then p :: l else l

/-- Selection and ranking, from `select_thrusters` in `src/selector.py`
(the Python defaults are `mass_weight=0.4`, `time_weight=0.6`,
`show_infeasible=False`). -/
def select_thrusters (r : MissionRequirements) (ts : List Thruster)
    (mass_weight time_weight : ℝ) (show_infeasible : Bool) :
    Option (List ThrusterPerformance) :=
  (select_go r ts mass_weight time_weight show_infeasible).map sortPerfs

/-- Records of a list whose combined score equals a given float value, in
order; used to state sort stability. -/
def scoreFilter (k : F) (l : List ThrusterPerformance) :
    List ThrusterPerformance :=
  l.filter (fun p => decide (p.combined_score = k))

/-- Ascending order on performance records by combined score, as compared
by the float non-strict comparison. -/
def perfLe (a b : ThrusterPerformance) : Prop :=
  F.ble a.combined_score b.combined_score = true

/-- Thruster with a zero specific impulse; its propellant mass is the
infinity sentinel. -/
def badIspThruster : Thruster :=
  { id := "bad-isp", name := "Bad Isp", manufacturer := "ACME", ty := "ion"
    thrust_mN := 1000, isp_s := 0, power_W := 50, mass_kg := 2, trl := 9
    thrust_efficiency := 0.5, propellant := "xenon" }

/-- Thruster with zero thrust; its mission duration is the infinity
sentinel. -/
def badThrustThruster : Thruster :=
  { id := "bad-thrust", name := "Bad Thrust", manufacturer := "ACME", ty := "ion"
    thrust_mN := 0, isp_s := 1500, power_W := 50, mass_kg := 2, trl := 9
    thrust_efficiency := 0.5, propellant := "xenon" }

/-- Ordinary mission requirements used for the concrete degenerate runs. -/
def mission1 : MissionRequirements :=
  { delta_v_ms := 500, satellite_dry_mass_kg := 10, available_power_W := 100
    mass_budget_kg := 100, min_trl := 6, max_duty_cycle := 3 }

/-- Mission with zero required delta-v: the propellant mass is zero, so the
mission duration is the infinity sentinel even for a healthy thruster. -/
def missionZeroDv : MissionRequirements :=
  { delta_v_ms := 0, satellite_dry_mass_kg := 10, available_power_W := 100
    mass_budget_kg := 100, min_trl := 6, max_duty_cycle := 3 }

/-- Healthy thruster used for zero-delta-v degenerate runs. -/
def plainThruster : Thruster :=
  { id := "plain", name := "Plain", manufacturer := "ACME", ty := "ion"
    thrust_mN := 1000, isp_s := 1500, power_W := 50, mass_kg := 2, trl := 9
    thrust_efficiency := 0.5, propellant := "xenon" }

/-- Dry mass of satellite plus thruster, as computed in
`calculate_mass_breakdown`. -/
def dryMassWith (t : Thruster) (r : MissionRequirements) : ℝ :=
  r.satellite_dry_mass_kg + t.mass_kg

/-- Finite-case propellant mass of the pipeline. -/
def propFin (t : Thruster) (r : MissionRequirements) : ℝ :=
  dryMassWith t r * (Real.exp (r.delta_v_ms / (t.isp_s * G0)) - 1)

/-- Finite-case total mass of the pipeline. -/
def totalFin (t : Thruster) (r : MissionRequirements) : ℝ :=
  dryMassWith t r + propFin t r

/-- Finite-case mission duration of the pipeline, in days. -/
def durationFin (t : Thruster) (r : MissionRequirements) : ℝ :=
  propFin t r * (t.isp_s * G0) / t.thrust_N / SECONDS_PER_DAY

/-- Reason list of `check_feasibility` written as one concatenation of six
independent optional singletons, in check order. -/
def reasonList (t : Thruster) (r : MissionRequirements) (tm fr : F) :
    List Reason :=
  (if t.trl < r.min_trl then [Reason.trl t.trl r.min_trl] else []) ++
  (if t.power_W > r.available_power_W * r.max_duty_cycle then
    [Reason.power t.power_W r.max_duty_cycle
      (r.available_power_W * r.max_duty_cycle)] else []) ++
  (if t.isp_s ≤ 0 then [Reason.isp] else []) ++
  (if t.thrust_N ≤ 0 then [Reason.thrust] else []) ++
  (if F.blt (F.fin r.mass_budget_kg) tm then
    [Reason.massBudget tm r.mass_budget_kg] else []) ++
  (if F.blt (F.fin 0.5) fr then [Reason.fuelRatio fr] else [])

/-- Thruster violating only the TRL check against `trlMassMission` (which
also puts it over the mass budget). -/
def trlMassThruster : Thruster :=
  { id := "trl-mass", name := "TrlMass", manufacturer := "ACME", ty := "ion"
    thrust_mN := 1000, isp_s := 100, power_W := 10, mass_kg := 5, trl := 3
    thrust_efficiency := 0.5, propellant := "xenon" }

/-- Mission against which `trlMassThruster` violates exactly the TRL and
mass-budget checks. -/
def trlMassMission : MissionRequirements :=
  { delta_v_ms := 0, satellite_dry_mass_kg := 20, available_power_W := 30
    mass_budget_kg := 10, min_trl := 6, max_duty_cycle := 3 }

/-- Index of the check (1 to 6) that produces a reason, used to state that
each check contributes at most one reason. -/
def Reason.kindIdx : Reason → ℕ
  | .trl _ _ => 1
  | .power _ _ _ => 2
  | .isp => 3
  | .thrust => 4
  | .massBudget _ _ => 5
  | .fuelRatio _ => 6

/-- Thruster that evaluates normally and feasibly against `goodMission`. -/
def goodThruster : Thruster :=
  { id := "good", name := "Good", manufacturer := "ACME", ty := "ion"
    thrust_mN := 1000, isp_s := 1000, power_W := 60, mass_kg := 3, trl := 9
    thrust_efficiency := 0.5, propellant := "xenon" }

/-- Mission on which `goodThruster` evaluates normally and feasibly. -/
def goodMission : MissionRequirements :=
  { delta_v_ms := 981, satellite_dry_mass_kg := 7, available_power_W := 100
    mass_budget_kg := 100, min_trl := 6, max_duty_cycle := 3 }

/-- The performance record produced by evaluating `goodThruster` against
`goodMission` with weights 0.4 and 0.6. -/
def goodPerf : ThrusterPerformance :=
  { thruster := goodThruster
    propellant_mass_kg := F.fin (propFin goodThruster goodMission)
    total_mass_kg := F.fin (totalFin goodThruster goodMission)
    mission_duration_days := F.fin (durationFin goodThruster goodMission)
    num_burns_estimate :=
      if goodThruster.power_W > goodMission.available_power_W then
        truncF (durationFin goodThruster goodMission * 15 * 2)
      else max 1 (truncF (durationFin goodThruster goodMission * 15 / 10))
    fuel_ratio_percent :=
      F.fin (propFin goodThruster goodMission /
        totalFin goodThruster goodMission * 100)
    is_feasible := true
    infeasibility_reasons := []
    mass_score :=
      F.fin (totalFin goodThruster goodMission / goodMission.mass_budget_kg)
    time_score := F.fin (durationFin goodThruster goodMission / 365)
    combined_score :=
      F.fin (0.4 * (totalFin goodThruster goodMission /
          goodMission.mass_budget_kg) +
        0.6 * (durationFin goodThruster goodMission / 365)) }

end

theorem mass_breakdown_degenerate (t : Thruster) (r : MissionRequirements)
    (h : t.isp_s ≤ 0 ∨ dryMassWith t r ≤ 0) :
    calculate_mass_breakdown t r = some (dryMassWith t r, F.inf, F.inf, F.nan) := by
  have h' : t.isp_s ≤ 0 ∨ r.satellite_dry_mass_kg + t.mass_kg ≤ 0 := h
  simp [calculate_mass_breakdown, calculate_propellant_mass, if_pos h',
    F.add, F.blt, F.div, dryMassWith]

theorem mass_breakdown_finite (t : Thruster) (r : MissionRequirements)
    (h1 : 0 < t.isp_s) (h2 : 0 < dryMassWith t r) :
    calculate_mass_breakdown t r =
      some (dryMassWith t r, F.fin (propFin t r), F.fin (totalFin t r),
        if 0 < totalFin t r then F.fin (propFin t r / totalFin t r)
        else F.inf) := by
  have h' : ¬(t.isp_s ≤ 0 ∨ r.satellite_dry_mass_kg + t.mass_kg ≤ 0) := by
    push_neg
    exact ⟨h1, h2⟩
  simp only [calculate_mass_breakdown, calculate_propellant_mass, if_neg h',
    F.add]
  by_cases htot : 0 < totalFin t r
  · have htot' : F.blt (F.fin 0)
        (F.fin (r.satellite_dry_mass_kg + t.mass_kg +
          (r.satellite_dry_mass_kg + t.mass_kg) *
            (Real.exp (r.delta_v_ms / (t.isp_s * G0)) - 1))) = true := by
      simpa [F.blt, totalFin, dryMassWith, propFin] using htot
    have hne : r.satellite_dry_mass_kg + t.mass_kg +
        (r.satellite_dry_mass_kg + t.mass_kg) *
          (Real.exp (r.delta_v_ms / (t.isp_s * G0)) - 1) ≠ 0 := by
      have : (0:ℝ) < r.satellite_dry_mass_kg + t.mass_kg +
          (r.satellite_dry_mass_kg + t.mass_kg) *
            (Real.exp (r.delta_v_ms / (t.isp_s * G0)) - 1) := by
        simpa [totalFin, dryMassWith, propFin] using htot
      exact ne_of_gt this
    have htotr : (0:ℝ) < r.satellite_dry_mass_kg + t.mass_kg +
        (r.satellite_dry_mass_kg + t.mass_kg) *
          (Real.exp (r.delta_v_ms / (t.isp_s * G0)) - 1) := by
      simpa [totalFin, dryMassWith, propFin] using htot
    simp [htot', F.div, hne, if_pos htotr, dryMassWith, propFin, totalFin]
  · have htot' : F.blt (F.fin 0)
        (F.fin (r.satellite_dry_mass_kg + t.mass_kg +
          (r.satellite_dry_mass_kg + t.mass_kg) *
            (Real.exp (r.delta_v_ms / (t.isp_s * G0)) - 1))) = false := by
      simp only [F.blt, decide_eq_false_iff_not]
      simpa [totalFin, dryMassWith, propFin] using htot
    have htotr : ¬((0:ℝ) < r.satellite_dry_mass_kg + t.mass_kg +
        (r.satellite_dry_mass_kg + t.mass_kg) *
          (Real.exp (r.delta_v_ms / (t.isp_s * G0)) - 1)) := by
      simpa [totalFin, dryMassWith, propFin] using htot
    simp [htot', if_neg htotr, dryMassWith, propFin, totalFin]

theorem mass_breakdown_isSome (t : Thruster) (r : MissionRequirements) :
    ∃ d pm tm fr, calculate_mass_breakdown t r = some (d, pm, tm, fr) := by
  by_cases h : t.isp_s ≤ 0 ∨ dryMassWith t r ≤ 0
  · exact ⟨_, _, _, _, mass_breakdown_degenerate t r h⟩
  · push_neg at h
    refine ⟨_, _, _, _, mass_breakdown_finite t r h.1 h.2⟩

theorem check_feasibility_eq (t : Thruster) (r : MissionRequirements)
    (d : ℝ) (pm tm fr : F)
    (h : calculate_mass_breakdown t r = some (d, pm, tm, fr)) :
    check_feasibility t r =
      some ((reasonList t r tm fr).isEmpty, reasonList t r tm fr) := by
  simp only [check_feasibility, h, Option.map_some', reasonList]
  split_ifs <;> simp

theorem check_feasibility_isSome (t : Thruster) (r : MissionRequirements) :
    ∃ feas reasons, check_feasibility t r = some (feas, reasons) := by
  obtain ⟨d, pm, tm, fr, h⟩ := mass_breakdown_isSome t r
  exact ⟨_, _, check_feasibility_eq t r d pm tm fr h⟩

theorem mission_duration_guard (thrust_N isp_s : ℝ) (p : F)
    (h : thrust_N ≤ 0 ∨ isp_s ≤ 0 ∨ F.ble p (F.fin 0) = true) :
    calculate_mission_duration thrust_N isp_s p = some F.inf := by
  simp only [calculate_mission_duration]
  rw [if_pos]
  simpa using h

theorem mission_duration_fin (thrust_N isp_s pv : ℝ)
    (h1 : 0 < thrust_N) (h2 : 0 < isp_s) (h3 : 0 < pv) :
    calculate_mission_duration thrust_N isp_s (F.fin pv) =
      some (F.fin (pv * (isp_s * G0) / thrust_N / SECONDS_PER_DAY)) := by
  have hg : ¬(thrust_N ≤ 0 ∨ isp_s ≤ 0 ∨ F.ble (F.fin pv) (F.fin 0) = true) := by
    simp only [F.ble, not_or, not_le, decide_eq_true_eq]
    exact ⟨h1, h2, by simpa using h3⟩
  simp only [calculate_mission_duration, if_neg hg, F.mul, F.div,
    SECONDS_PER_DAY]
  have h1' : thrust_N ≠ 0 := ne_of_gt h1
  simp [h1']

theorem mission_duration_inf (thrust_N isp_s : ℝ)
    (h1 : 0 < thrust_N) (h2 : 0 < isp_s) :
    calculate_mission_duration thrust_N isp_s F.inf = some F.inf := by
  have hg : ¬(thrust_N ≤ 0 ∨ isp_s ≤ 0 ∨ F.ble F.inf (F.fin 0) = true) := by
    simp only [F.ble, not_or, not_le]
    exact ⟨h1, h2, by simp⟩
  have hve : 0 < isp_s * G0 := by
    have : (0:ℝ) < G0 := by norm_num [G0]
    positivity
  simp only [calculate_mission_duration, if_neg hg, F.mul, F.div,
    if_pos hve, SECONDS_PER_DAY]
  have h1' : thrust_N ≠ 0 := ne_of_gt h1
  simp [h1', h1]

theorem estimate_burns_fin (d p a : ℝ) :
    estimate_number_of_burns (F.fin d) p a =
      some (if p > a then truncF (d * 15 * 2)
        else max 1 (truncF (d * 15 / 10))) := by
  have h10 : ¬((10:ℝ) = 0) := by norm_num
  simp only [estimate_number_of_burns, F.mul, F.div, F.toInt, h10]
  split_ifs with h <;> simp_all

theorem estimate_burns_not_fin (md : F) (p a : ℝ)
    (h : ∀ x, md ≠ F.fin x) : estimate_number_of_burns md p a = none := by
  cases md with
  | fin x => exact absurd rfl (h x)
  | inf =>
      simp only [estimate_number_of_burns, F.mul, F.div]
      split_ifs <;> simp [F.toInt]
  | ninf =>
      simp only [estimate_number_of_burns, F.mul, F.div]
      split_ifs <;> simp [F.toInt]
  | nan =>
      simp only [estimate_number_of_burns, F.mul, F.div]
      split_ifs <;> simp [F.toInt]

theorem estimate_burns_some_fin (md : F) (p a : ℝ) (n : ℤ)
    (h : estimate_number_of_burns md p a = some n) : ∃ x, md = F.fin x := by
  by_cases hx : ∃ x, md = F.fin x
  · exact hx
  · push_neg at hx
    rw [estimate_burns_not_fin md p a hx] at h
    exact Option.noConfusion h

theorem mission_duration_nan (thrust_N isp_s : ℝ)
    (h1 : 0 < thrust_N) (h2 : 0 < isp_s) :
    calculate_mission_duration thrust_N isp_s F.nan = some F.nan := by
  have hg : ¬(thrust_N ≤ 0 ∨ isp_s ≤ 0 ∨ F.ble F.nan (F.fin 0) = true) := by
    simp only [F.ble, not_or, not_le]
    exact ⟨h1, h2, by simp⟩
  simp only [calculate_mission_duration, if_neg hg, F.mul, F.div,
    SECONDS_PER_DAY]
  have h1' : thrust_N ≠ 0 := ne_of_gt h1
  simp [h1']

theorem mission_duration_some_fin (thrust_N isp_s : ℝ) (pm : F) (x : ℝ)
    (h : calculate_mission_duration thrust_N isp_s pm = some (F.fin x)) :
    ∃ y, pm = F.fin y := by
  cases pm with
  | fin y => exact ⟨y, rfl⟩
  | inf =>
      exfalso
      by_cases hg : thrust_N ≤ 0 ∨ isp_s ≤ 0
      · rw [mission_duration_guard _ _ _ (hg.imp id Or.inl)] at h
        simp at h
      · push_neg at hg
        rw [mission_duration_inf _ _ hg.1 hg.2] at h
        simp at h
  | ninf =>
      exfalso
      rw [mission_duration_guard _ _ _ (Or.inr (Or.inr (by simp [F.ble])))] at h
      simp at h
  | nan =>
      exfalso
      by_cases hg : thrust_N ≤ 0 ∨ isp_s ≤ 0
      · rw [mission_duration_guard _ _ _ (hg.imp id Or.inl)] at h
        simp at h
      · push_neg at hg
        rw [mission_duration_nan _ _ hg.1 hg.2] at h
        simp at h

theorem evaluate_some_elim {t : Thruster} {r : MissionRequirements}
    {mw tw : ℝ} {perf : ThrusterPerformance}
    (h : evaluate_thruster t r mw tw = some perf) :
    ∃ d pm tm fr md nb feas ms ts,
      calculate_mass_breakdown t r = some (d, pm, tm, fr) ∧
      calculate_mission_duration t.thrust_N t.isp_s pm = some md ∧
      estimate_number_of_burns md t.power_W r.available_power_W = some nb ∧
      check_feasibility t r = some feas ∧
      F.div tm (F.fin r.mass_budget_kg) = some ms ∧
      F.div md (F.fin 365) = some ts ∧
      perf = { thruster := t
               propellant_mass_kg := pm
               total_mass_kg := tm
               mission_duration_days := md
               num_burns_estimate := nb
               fuel_ratio_percent := F.mul fr (F.fin 100)
               is_feasible := feas.1
               infeasibility_reasons := feas.2
               mass_score := ms
               time_score := ts
               combined_score := F.add (F.mul (F.fin mw) ms)
                 (F.mul (F.fin tw) ts) } := by
  simp only [evaluate_thruster, Option.bind_eq_some] at h
  obtain ⟨⟨d, pm, tm, fr⟩, hbd, md, hmd, nb, hnb, feas, hfeas, ms, hms, ts,
    hts, hperf⟩ := h
  exact ⟨d, pm, tm, fr, md, nb, feas, ms, ts, hbd, hmd, hnb, hfeas, hms, hts,
    (Option.some.inj hperf).symm⟩

theorem evaluate_some_thruster {t : Thruster} {r : MissionRequirements}
    {mw tw : ℝ} {perf : ThrusterPerformance}
    (h : evaluate_thruster t r mw tw = some perf) : perf.thruster = t := by
  obtain ⟨d, pm, tm, fr, md, nb, feas, ms, ts, _, _, _, _, _, _, hperf⟩ :=
    evaluate_some_elim h
  rw [hperf]

theorem evaluate_some_combined_fin {t : Thruster} {r : MissionRequirements}
    {mw tw : ℝ} {perf : ThrusterPerformance}
    (h : evaluate_thruster t r mw tw = some perf) :
    ∃ c, perf.combined_score = F.fin c := by
  obtain ⟨d, pm, tm, fr, md, nb, feas, ms, ts, hbd, hmd, hnb, hfeas, hms, hts,
    hperf⟩ := evaluate_some_elim h
  obtain ⟨mdv, rfl⟩ := estimate_burns_some_fin md _ _ _ hnb
  obtain ⟨pv, rfl⟩ := mission_duration_some_fin _ _ _ _ hmd
  have htm : ∃ tv, tm = F.fin tv := by
    by_cases hdeg : t.isp_s ≤ 0 ∨ dryMassWith t r ≤ 0
    · rw [mass_breakdown_degenerate t r hdeg] at hbd
      simp at hbd
    · push_neg at hdeg
      rw [mass_breakdown_finite t r hdeg.1 hdeg.2] at hbd
      simp at hbd
      exact ⟨totalFin t r, hbd.2.2.1.symm⟩
  obtain ⟨tv, rfl⟩ := htm
  have hbne : r.mass_budget_kg ≠ 0 := by
    intro h0
    rw [h0] at hms
    simp [F.div] at hms
  have hms' : ms = F.fin (tv / r.mass_budget_kg) := by
    simp [F.div, hbne] at hms
    exact hms.symm
  have hts' : ts = F.fin (mdv / 365) := by
    have h365 : ((365:ℝ) = 0) = False := by norm_num
    simp [F.div, h365] at hts
    exact hts.symm
  rw [hperf]
  simp only [hms', hts', F.mul, F.add]
  exact ⟨_, rfl⟩

theorem evaluate_thruster_eq (t : Thruster) (r : MissionRequirements)
    (mw tw : ℝ) (feas : Bool × List Reason)
    (h1 : 0 < t.isp_s) (h2 : 0 < dryMassWith t r) (h3 : 0 < t.thrust_N)
    (h4 : 0 < propFin t r) (h5 : r.mass_budget_kg ≠ 0)
    (hf : check_feasibility t r = some feas) :
    evaluate_thruster t r mw tw =
      some { thruster := t
             propellant_mass_kg := F.fin (propFin t r)
             total_mass_kg := F.fin (totalFin t r)
             mission_duration_days := F.fin (durationFin t r)
             num_burns_estimate :=
               if t.power_W > r.available_power_W then
                 truncF (durationFin t r * 15 * 2)
               else max 1 (truncF (durationFin t r * 15 / 10))
             fuel_ratio_percent := F.fin (propFin t r / totalFin t r * 100)
             is_feasible := feas.1
             infeasibility_reasons := feas.2
             mass_score := F.fin (totalFin t r / r.mass_budget_kg)
             time_score := F.fin (durationFin t r / 365)
             combined_score :=
               F.fin (mw * (totalFin t r / r.mass_budget_kg) +
                 tw * (durationFin t r / 365)) } := by
  have htot : 0 < totalFin t r := by
    unfold totalFin
    exact add_pos h2 h4
  have hbd := mass_breakdown_finite t r h1 h2
  rw [if_pos htot] at hbd
  have hmd := mission_duration_fin t.thrust_N t.isp_s (propFin t r) h3 h1 h4
  have h365 : ¬((365:ℝ) = 0) := by norm_num
  simp only [evaluate_thruster, hbd, Option.some_bind, hmd,
    estimate_burns_fin, hf]
  simp [F.div, F.mul, F.add, h5, h365, durationFin, SECONDS_PER_DAY]

theorem exp_good_gt_one : 1 < Real.exp (981 / (1000 * G0)) := by
  have hx : (0:ℝ) < 981 / (1000 * G0) := by norm_num [G0]
  have h := Real.add_one_le_exp (981 / (1000 * G0))
  linarith

theorem exp_good_lt_two : Real.exp (981 / (1000 * G0)) < 2 := by
  have hlog := Real.log_two_gt_d9
  have h1 : (981:ℝ) / (1000 * G0) < Real.log 2 := by
    have hx : (981:ℝ) / (1000 * G0) = 0.1 := by norm_num [G0]
    rw [hx]
    linarith
  calc Real.exp (981 / (1000 * G0)) < Real.exp (Real.log 2) :=
        Real.exp_lt_exp.mpr h1
    _ = 2 := Real.exp_log (by norm_num)

theorem propFin_good_pos : 0 < propFin goodThruster goodMission := by
  have h := exp_good_gt_one
  simp only [propFin, dryMassWith, goodThruster, goodMission]
  nlinarith

theorem dry_good_pos : 0 < dryMassWith goodThruster goodMission := by
  norm_num [dryMassWith, goodThruster, goodMission]

theorem totalFin_good_pos : 0 < totalFin goodThruster goodMission := by
  unfold totalFin
  exact add_pos dry_good_pos propFin_good_pos

theorem breakdown_good :
    calculate_mass_breakdown goodThruster goodMission =
      some (dryMassWith goodThruster goodMission,
        F.fin (propFin goodThruster goodMission),
        F.fin (totalFin goodThruster goodMission),
        F.fin (propFin goodThruster goodMission /
          totalFin goodThruster goodMission)) := by
  have h1 : (0:ℝ) < goodThruster.isp_s := by norm_num [goodThruster]
  have h := mass_breakdown_finite goodThruster goodMission h1 dry_good_pos
  rw [if_pos totalFin_good_pos] at h
  exact h

theorem duration_good :
    calculate_mission_duration goodThruster.thrust_N goodThruster.isp_s
        (F.fin (propFin goodThruster goodMission)) =
      some (F.fin (durationFin goodThruster goodMission)) := by
  have h1 : (0:ℝ) < goodThruster.isp_s := by norm_num [goodThruster]
  have h3 : 0 < goodThruster.thrust_N := by
    norm_num [Thruster.thrust_N, goodThruster]
  exact mission_duration_fin _ _ _ h3 h1 propFin_good_pos

theorem blt_budget_good_false :
    F.blt (F.fin goodMission.mass_budget_kg)
      (F.fin (totalFin goodThruster goodMission)) = false := by
  have he2 := exp_good_lt_two
  simp only [F.blt, decide_eq_false_iff_not, not_lt]
  simp only [totalFin, dryMassWith, propFin, goodThruster, goodMission]
  nlinarith

theorem blt_fuel_good_false :
    F.blt (F.fin 0.5)
      (F.fin (propFin goodThruster goodMission /
        totalFin goodThruster goodMission)) = false := by
  have he1 := exp_good_gt_one
  have he2 := exp_good_lt_two
  simp only [F.blt, decide_eq_false_iff_not, not_lt]
  rw [div_le_iff₀ totalFin_good_pos]
  simp only [totalFin, dryMassWith, propFin, goodThruster, goodMission]
  nlinarith

theorem check_good :
    check_feasibility goodThruster goodMission = some (true, []) := by
  rw [check_feasibility_eq _ _ _ _ _ _ breakdown_good]
  simp only [reasonList, blt_budget_good_false, blt_fuel_good_false]
  norm_num [goodThruster, goodMission, Thruster.thrust_N]

theorem evaluate_good :
    evaluate_thruster goodThruster goodMission 0.4 0.6 = some goodPerf := by
  have h1 : (0:ℝ) < goodThruster.isp_s := by norm_num [goodThruster]
  have h3 : 0 < goodThruster.thrust_N := by
    norm_num [Thruster.thrust_N, goodThruster]
  have h5 : goodMission.mass_budget_kg ≠ 0 := by norm_num [goodMission]
  have h := evaluate_thruster_eq goodThruster goodMission 0.4 0.6 (true, [])
    h1 dry_good_pos h3 propFin_good_pos h5 check_good
  rw [h]
  rfl

theorem select_good_true :
    select_thrusters goodMission [goodThruster] 0.4 0.6 true =
      some [goodPerf] := by
  simp [select_thrusters, select_go, evaluate_good, sortPerfs, insertPerf]

theorem select_good_false :
    select_thrusters goodMission [goodThruster] 0.4 0.6 false =
      some [goodPerf] := by
  have hfeas : goodPerf.is_feasible = true := rfl
  simp [select_thrusters, select_go, evaluate_good, sortPerfs, insertPerf,
    hfeas]

theorem perfLe_fin {a b : ThrusterPerformance} {ca cb : ℝ}
    (ha : a.combined_score = F.fin ca) (hb : b.combined_score = F.fin cb) :
    perfLe a b ↔ ca ≤ cb := by
  simp [perfLe, ha, hb, F.ble]

theorem insertPerf_perm (x : ThrusterPerformance)
    (l : List ThrusterPerformance) : (insertPerf x l).Perm (x :: l) := by
  induction l with
  | nil => rfl
  | cons y ys ih =>
      simp only [insertPerf]
      split_ifs with h
      · exact List.Perm.refl _
      · exact (List.Perm.cons y ih).trans (List.Perm.swap x y ys)

theorem sortPerfs_perm (l : List ThrusterPerformance) :
    (sortPerfs l).Perm l := by
  induction l with
  | nil => rfl
  | cons x xs ih =>
      exact (insertPerf_perm x (sortPerfs xs)).trans (List.Perm.cons x ih)

theorem insertPerf_sorted (x : ThrusterPerformance)
    (l : List ThrusterPerformance)
    (hx : ∃ c, x.combined_score = F.fin c)
    (hl : ∀ p ∈ l, ∃ c, p.combined_score = F.fin c)
    (hs : l.Pairwise perfLe) : (insertPerf x l).Pairwise perfLe := by
  induction l with
  | nil => simp [insertPerf]
  | cons y ys ih =>
      obtain ⟨cx, hcx⟩ := hx
      obtain ⟨cy, hcy⟩ := hl y (by simp)
      simp only [insertPerf]
      split_ifs with h
      · refine List.Pairwise.cons ?_ hs
        intro z hz
        rcases List.mem_cons.mp hz with hz | hz
        · subst hz
          exact h
        · obtain ⟨cz, hcz⟩ := hl z (by simp [hz])
          have hxy : cx ≤ cy := by
            have := (perfLe_fin hcx hcy).mp h
            exact this
          have hyz : cy ≤ cz :=
            (perfLe_fin hcy hcz).mp (List.rel_of_pairwise_cons hs hz)
          exact (perfLe_fin hcx hcz).mpr (le_trans hxy hyz)
      · refine List.Pairwise.cons ?_
          (ih (fun p hp => hl p (by simp [hp])) hs.of_cons)
        intro z hz
        have hz' := (insertPerf_perm x ys).mem_iff.mp hz
        rcases List.mem_cons.mp hz' with hz' | hz'
        · subst hz'
          have hxy : ¬cx ≤ cy := fun hle => h ((perfLe_fin hcx hcy).mpr hle)
          exact (perfLe_fin hcy hcx).mpr (le_of_not_le hxy)
        · exact List.rel_of_pairwise_cons hs hz'

theorem sortPerfs_sorted (l : List ThrusterPerformance)
    (hl : ∀ p ∈ l, ∃ c, p.combined_score = F.fin c) :
    (sortPerfs l).Pairwise perfLe := by
  induction l with
  | nil => simp [sortPerfs]
  | cons x xs ih =>
      simp only [sortPerfs]
      refine insertPerf_sorted x (sortPerfs xs) (hl x (by simp)) ?_
        (ih (fun p hp => hl p (by simp [hp])))
      intro p hp
      exact hl p (by simp [(sortPerfs_perm xs).mem_iff.mp hp])

theorem scoreFilter_cons (k : F) (a : ThrusterPerformance)
    (l : List ThrusterPerformance) :
    scoreFilter k (a :: l) =
      if a.combined_score = k then a :: scoreFilter k l
      else scoreFilter k l := by
  by_cases h : a.combined_score = k <;>
    simp [scoreFilter, List.filter_cons, h]

theorem insertPerf_scoreFilter (x : ThrusterPerformance)
    (l : List ThrusterPerformance) (k : F) {cx : ℝ}
    (hx : x.combined_score = F.fin cx) :
    scoreFilter k (insertPerf x l) =
      if x.combined_score = k then x :: scoreFilter k l
      else scoreFilter k l := by
  induction l with
  | nil =>
      simp only [insertPerf]
      exact scoreFilter_cons k x []
  | cons y ys ih =>
      simp only [insertPerf]
      by_cases h : F.ble x.combined_score y.combined_score = true
      · rw [if_pos h, scoreFilter_cons]
      · rw [if_neg h, scoreFilter_cons k y (insertPerf x ys), ih]
        by_cases hxk : x.combined_score = k
        · have hyk : y.combined_score ≠ k := by
            intro hyk
            apply h
            have hy' : y.combined_score = F.fin cx := by rw [hyk, ← hxk, hx]
            rw [hx, hy']
            simp [F.ble]
          simp [hxk, hyk, scoreFilter_cons]
        · simp [hxk, scoreFilter_cons]

theorem sortPerfs_scoreFilter (l : List ThrusterPerformance)
    (hl : ∀ p ∈ l, ∃ c, p.combined_score = F.fin c) (k : F) :
    scoreFilter k (sortPerfs l) = scoreFilter k l := by
  induction l with
  | nil => rfl
  | cons x xs ih =>
      obtain ⟨cx, hcx⟩ := hl x (by simp)
      simp only [sortPerfs]
      rw [insertPerf_scoreFilter x (sortPerfs xs) k hcx,
        ih (fun p hp => hl p (by simp [hp])), scoreFilter_cons]

theorem select_go_mem {r : MissionRequirements} {ts : List Thruster}
    {mw tw : ℝ} {b : Bool} {pre : List ThrusterPerformance}
    (h : select_go r ts mw tw b = some pre) :
    ∀ p ∈ pre, ∃ t ∈ ts, evaluate_thruster t r mw tw = some p := by
  induction ts generalizing pre with
  | nil =>
      simp only [select_go, Option.some.injEq] at h
      subst h
      simp
  | cons t rest ih =>
      simp only [select_go, Option.bind_eq_some, Option.map_eq_some'] at h
      obtain ⟨p0, hp0, l, hl, hpre⟩ := h
      intro p hp
      rw [← hpre] at hp
      split_ifs at hp with hb
      · rcases List.mem_cons.mp hp with hp | hp
        · subst hp
          exact ⟨t, by simp, hp0⟩
        · obtain ⟨t', ht', he⟩ := ih hl p hp
          exact ⟨t', by simp [ht'], he⟩
      · obtain ⟨t', ht', he⟩ := ih hl p hp
        exact ⟨t', by simp [ht'], he⟩

theorem select_go_length_true {r : MissionRequirements} {ts : List Thruster}
    {mw tw : ℝ} {pre : List ThrusterPerformance}
    (h : select_go r ts mw tw true = some pre) : pre.length = ts.length := by
  induction ts generalizing pre with
  | nil =>
      simp only [select_go, Option.some.injEq] at h
      subst h
      rfl
  | cons t rest ih =>
      simp only [select_go, Option.bind_eq_some, Option.map_eq_some',
        Bool.true_or, if_true] at h
      obtain ⟨p0, _, l, hl, hpre⟩ := h
      subst hpre
      simp [ih hl]

theorem select_go_feasible_false {r : MissionRequirements}
    {ts : List Thruster} {mw tw : ℝ} {pre : List ThrusterPerformance}
    (h : select_go r ts mw tw false = some pre) :
    ∀ p ∈ pre, p.is_feasible = true := by
  induction ts generalizing pre with
  | nil =>
      simp only [select_go, Option.some.injEq] at h
      subst h
      simp
  | cons t rest ih =>
      simp only [select_go, Option.bind_eq_some, Option.map_eq_some',
        Bool.false_or] at h
      obtain ⟨p0, _, l, hl, hpre⟩ := h
      intro p hp
      rw [← hpre] at hp
      split_ifs at hp with hb
      · rcases List.mem_cons.mp hp with hp | hp
        · subst hp
          exact hb
        · exact ih hl p hp
      · exact ih hl p hp

theorem select_go_thruster_sublist {r : MissionRequirements}
    {ts : List Thruster} {mw tw : ℝ} {b : Bool}
    {pre : List ThrusterPerformance}
    (h : select_go r ts mw tw b = some pre) :
    (pre.map (fun p => p.thruster)).Sublist ts := by
  induction ts generalizing pre with
  | nil =>
      simp only [select_go, Option.some.injEq] at h
      subst h
      simp
  | cons t rest ih =>
      simp only [select_go, Option.bind_eq_some, Option.map_eq_some'] at h
      obtain ⟨p0, hp0, l, hl, hpre⟩ := h
      subst hpre
      split_ifs with hb
      · simp only [List.map_cons, evaluate_some_thruster hp0]
        exact List.Sublist.cons₂ t (ih hl)
      · exact List.Sublist.cons t (ih hl)

theorem breakdown_badIsp :
    calculate_mass_breakdown badIspThruster mission1 =
      some (12, F.inf, F.inf, F.nan) := by
  simp [calculate_mass_breakdown, calculate_propellant_mass, F.add, F.blt,
    F.div, badIspThruster, mission1]
  norm_num

theorem evaluate_badIsp_none :
    evaluate_thruster badIspThruster mission1 0.4 0.6 = none := by
  simp [evaluate_thruster, calculate_mass_breakdown, calculate_propellant_mass,
    calculate_mission_duration, estimate_number_of_burns, check_feasibility,
    F.add, F.mul, F.div, F.blt, F.ble, F.toInt, Thruster.thrust_N,
    badIspThruster, mission1]

theorem evaluate_badThrust_none :
    evaluate_thruster badThrustThruster mission1 0.4 0.6 = none := by
  obtain ⟨d, pm, tm, fr, hbd⟩ := mass_breakdown_isSome badThrustThruster mission1
  have hdur := mission_duration_guard badThrustThruster.thrust_N
    badThrustThruster.isp_s pm
    (Or.inl (by norm_num [Thruster.thrust_N, badThrustThruster]))
  have hest := estimate_burns_not_fin F.inf badThrustThruster.power_W
    mission1.available_power_W (fun x h => F.noConfusion h)
  simp [evaluate_thruster, hbd, hdur, hest]

theorem evaluate_plainZeroDv_none :
    evaluate_thruster plainThruster missionZeroDv 0.4 0.6 = none := by
  have h1 : (0:ℝ) < plainThruster.isp_s := by norm_num [plainThruster]
  have h2 : 0 < dryMassWith plainThruster missionZeroDv := by
    norm_num [dryMassWith, plainThruster, missionZeroDv]
  have hbd := mass_breakdown_finite plainThruster missionZeroDv h1 h2
  have hp0 : propFin plainThruster missionZeroDv = 0 := by
    simp [propFin, dryMassWith, plainThruster, missionZeroDv]
  have hdur := mission_duration_guard plainThruster.thrust_N
    plainThruster.isp_s (F.fin (propFin plainThruster missionZeroDv))
    (Or.inr (Or.inr (by simp [F.ble, hp0])))
  have hest := estimate_burns_not_fin F.inf plainThruster.power_W
    missionZeroDv.available_power_W (fun x h => F.noConfusion h)
  simp [evaluate_thruster, hbd, hdur, hest]

theorem select_go_good_true :
    select_go goodMission [goodThruster] 0.4 0.6 true = some [goodPerf] := by
  simp [select_go, evaluate_good]

theorem breakdown_trlMass :
    calculate_mass_breakdown trlMassThruster trlMassMission =
      some (25, F.fin 0, F.fin 25, F.fin 0) := by
  simp [calculate_mass_breakdown, calculate_propellant_mass, F.add, F.blt,
    F.div, trlMassThruster, trlMassMission]
  norm_num

/-- C1: the claim states that whenever the computed propellant mass or
mission duration is positive infinity, `evaluate_thruster` returns normally
with an infeasible record whose scores are defined.  The code instead
raises: with a zero-Isp thruster the propellant mass is the infinity
sentinel, the burn-count estimate applies Python's `int()` to an infinite
orbit count — which raises OverflowError — and `evaluate_thruster`
therefore propagates an exception (modelled as `none`) instead of
returning a record. -/
theorem C1_evaluate_raises_on_infinite_duration :
    calculate_propellant_mass mission1.delta_v_ms badIspThruster.isp_s
        (dryMassWith badIspThruster mission1) = F.inf ∧
    estimate_number_of_burns F.inf badIspThruster.power_W
        mission1.available_power_W = none ∧
    evaluate_thruster badIspThruster mission1 0.4 0.6 = none :=
  ⟨by simp [calculate_propellant_mass, badIspThruster],
   estimate_burns_not_fin F.inf _ _ (fun x h => F.noConfusion h),
   evaluate_badIsp_none⟩

/-- C2: the claim states that with a non-positive Isp the infinite
propellant mass propagates so that the total mass and the fuel ratio are
both positive infinity and no NaN is produced.  In the code the total mass
is indeed positive infinity, but it then satisfies the `total_mass > 0`
guard, so the fuel ratio is computed as `inf / inf`, which is NaN. -/
theorem C2_fuel_ratio_is_nan :
    calculate_mass_breakdown badIspThruster mission1 =
      some (12, F.inf, F.inf, F.nan) :=
  breakdown_badIsp

/-- C3: `check_feasibility` runs all six checks independently, collecting
one reason per violated check in the fixed order given by `reasonList`,
and is feasible exactly when the reason list is empty; in particular a
thruster violating only the TRL and mass-budget checks yields exactly
those two reasons in that order, and one violating nothing yields
`(true, [])`. -/
theorem C3_check_feasibility_order (t : Thruster) (r : MissionRequirements)
    (d : ℝ) (pm tm fr : F)
    (h : calculate_mass_breakdown t r = some (d, pm, tm, fr)) :
    check_feasibility t r =
      some ((reasonList t r tm fr).isEmpty, reasonList t r tm fr) ∧
    ((reasonList t r tm fr).isEmpty = true ↔ reasonList t r tm fr = []) ∧
    (t.trl < r.min_trl →
      ¬t.power_W > r.available_power_W * r.max_duty_cycle →
      ¬t.isp_s ≤ 0 → ¬t.thrust_N ≤ 0 →
      F.blt (F.fin r.mass_budget_kg) tm = true →
      F.blt (F.fin 0.5) fr = false →
      check_feasibility t r = some (false,
        [Reason.trl t.trl r.min_trl,
         Reason.massBudget tm r.mass_budget_kg])) ∧
    (¬t.trl < r.min_trl →
      ¬t.power_W > r.available_power_W * r.max_duty_cycle →
      ¬t.isp_s ≤ 0 → ¬t.thrust_N ≤ 0 →
      F.blt (F.fin r.mass_budget_kg) tm = false →
      F.blt (F.fin 0.5) fr = false →
      check_feasibility t r = some (true, [])) := by
  have hc := check_feasibility_eq t r d pm tm fr h
  refine ⟨hc, by simp [List.isEmpty_iff], ?_, ?_⟩
  · intro c1 c2 c3 c4 c5 c6
    rw [hc]
    simp [reasonList, c1, c2, c3, c4, c5, c6]
  · intro c1 c2 c3 c4 c5 c6
    rw [hc]
    simp [reasonList, c1, c2, c3, c4, c5, c6]

/-- Witness for C3 at concrete inputs: a thruster violating only the TRL
and mass-budget checks yields exactly those two reasons in order, and
`goodThruster` against `goodMission` violates nothing and is feasible. -/
theorem C3_check_feasibility_order_witness :
    calculate_mass_breakdown trlMassThruster trlMassMission =
      some (25, F.fin 0, F.fin 25, F.fin 0) ∧
    check_feasibility trlMassThruster trlMassMission =
      some (false, [Reason.trl 3 6, Reason.massBudget (F.fin 25) 10]) ∧
    check_feasibility goodThruster goodMission = some (true, []) := by
  refine ⟨breakdown_trlMass, ?_, ?_⟩
  · have h := (C3_check_feasibility_order trlMassThruster trlMassMission
      25 (F.fin 0) (F.fin 25) (F.fin 0) breakdown_trlMass).2.2.1
      (by norm_num [trlMassThruster, trlMassMission])
      (by norm_num [trlMassThruster, trlMassMission])
      (by norm_num [trlMassThruster])
      (by norm_num [Thruster.thrust_N, trlMassThruster])
      (by simp only [F.blt]; norm_num [trlMassMission])
      (by simp only [F.blt]; norm_num)
    simpa [trlMassThruster, trlMassMission] using h
  · exact (C3_check_feasibility_order goodThruster goodMission
      (dryMassWith goodThruster goodMission)
      (F.fin (propFin goodThruster goodMission))
      (F.fin (totalFin goodThruster goodMission))
      (F.fin (propFin goodThruster goodMission /
        totalFin goodThruster goodMission)) breakdown_good).2.2.2
      (by norm_num [goodThruster, goodMission])
      (by norm_num [goodThruster, goodMission])
      (by norm_num [goodThruster])
      (by norm_num [Thruster.thrust_N, goodThruster])
      blt_budget_good_false blt_fuel_good_false

/-- C4: `calculate_propellant_mass` implements the Tsiolkovsky equation
with g0 fixed at 9.81 for positive Isp and dry mass, and returns the
positive-infinity sentinel on non-positive Isp or dry mass; likewise
`calculate_mission_duration` returns positive infinity whenever thrust,
Isp, or the propellant mass is non-positive. -/
theorem C4_rocket_equation (dv isp dry thrust : ℝ) (p : F) :
    (0 < isp → 0 < dry →
      calculate_propellant_mass dv isp dry =
        F.fin (dry * (Real.exp (dv / (isp * G0)) - 1))) ∧
    (isp ≤ 0 ∨ dry ≤ 0 → calculate_propellant_mass dv isp dry = F.inf) ∧
    (thrust ≤ 0 ∨ isp ≤ 0 ∨ F.ble p (F.fin 0) = true →
      calculate_mission_duration thrust isp p = some F.inf) := by
  refine ⟨?_, ?_, mission_duration_guard thrust isp p⟩
  · intro h1 h2
    rw [calculate_propellant_mass, if_neg]
    push_neg
    exact ⟨h1, h2⟩
  · intro h
    rw [calculate_propellant_mass, if_pos h]

/-- Witness for C4 at concrete inputs. -/
theorem C4_rocket_equation_witness :
    calculate_propellant_mass 1 2 3 =
      F.fin (3 * (Real.exp (1 / (2 * G0)) - 1)) ∧
    calculate_propellant_mass 1 (-1) 3 = F.inf ∧
    calculate_mission_duration 0 2 (F.fin 1) = some F.inf :=
  ⟨(C4_rocket_equation 1 2 3 0 (F.fin 1)).1 (by norm_num) (by norm_num),
   (C4_rocket_equation 1 (-1) 3 0 (F.fin 1)).2.1 (Or.inl (by norm_num)),
   (C4_rocket_equation 1 2 3 0 (F.fin 1)).2.2 (Or.inl le_rfl)⟩

/-- C5 counterexample: the claim asserts that for every input
`select_thrusters` returns a sorted sequence, but with a zero-Isp
candidate (even with the include-infeasible flag set) the evaluation
raises inside the burn-count estimate and `select_thrusters` returns
nothing at all. -/
theorem C5_counterexample :
    select_thrusters mission1 [badIspThruster] 0.4 0.6 true = none := by
  simp [select_thrusters, select_go, evaluate_badIsp_none]

/-- C5 (amended): whenever `select_thrusters` returns normally, its output
is the stable ascending sort of the per-thruster evaluation records taken
in input order: it is pairwise non-decreasing in combined score, records
with equal combined score keep their pre-sort relative order, and the
pre-sort sequence follows the input thruster order. -/
theorem C5_sorted_stable (r : MissionRequirements) (ts : List Thruster)
    (mw tw : ℝ) (b : Bool) (out pre : List ThrusterPerformance)
    (hgo : select_go r ts mw tw b = some pre)
    (hsel : select_thrusters r ts mw tw b = some out) :
    out = sortPerfs pre ∧
    out.Pairwise perfLe ∧
    (∀ k : F, scoreFilter k out = scoreFilter k pre) ∧
    (pre.map (fun p => p.thruster)).Sublist ts := by
  have hout : out = sortPerfs pre := by
    rw [select_thrusters, hgo] at hsel
    exact (Option.some.inj hsel).symm
  have hfin : ∀ p ∈ pre, ∃ c, p.combined_score = F.fin c := by
    intro p hp
    obtain ⟨t, ht, he⟩ := select_go_mem hgo p hp
    exact evaluate_some_combined_fin he
  refine ⟨hout, ?_, ?_, select_go_thruster_sublist hgo⟩
  · rw [hout]
    exact sortPerfs_sorted pre hfin
  · intro k
    rw [hout]
    exact sortPerfs_scoreFilter pre hfin k

/-- Witness for C5 on a concrete normal run. -/
theorem C5_sorted_stable_witness :
    select_go goodMission [goodThruster] 0.4 0.6 true = some [goodPerf] ∧
    select_thrusters goodMission [goodThruster] 0.4 0.6 true =
      some [goodPerf] ∧
    ([goodPerf] = sortPerfs [goodPerf] ∧
      List.Pairwise perfLe [goodPerf] ∧
      (∀ k : F, scoreFilter k [goodPerf] = scoreFilter k [goodPerf]) ∧
      ([goodPerf].map (fun p => p.thruster)).Sublist [goodThruster]) :=
  ⟨select_go_good_true, select_good_true,
   C5_sorted_stable goodMission [goodThruster] 0.4 0.6 true [goodPerf]
     [goodPerf] select_go_good_true select_good_true⟩

/-- C6 counterexample: the claim asserts that with the include-infeasible
flag set the output has one record per input thruster, and that an
all-infeasible-and-filtered input yields an empty sequence rather than an
error; but a zero-delta-v mission makes the propellant mass zero, the
mission duration infinite, and the burn-count `int()` conversion raise, so
`select_thrusters` returns nothing even for a healthy thruster. -/
theorem C6_counterexample :
    select_thrusters missionZeroDv [plainThruster] 0.4 0.6 true = none := by
  simp [select_thrusters, select_go, evaluate_plainZeroDv_none]

/-- C6 (amended): whenever `select_thrusters` returns normally, with the
include-infeasible flag unset every returned record is feasible, with the
flag set the output has exactly one record per input thruster, and an
empty input yields an empty output. -/
theorem C6_filtering (r : MissionRequirements) (ts : List Thruster)
    (mw tw : ℝ) (b : Bool) (out : List ThrusterPerformance) :
    (select_thrusters r ts mw tw false = some out →
      out.all (fun p => p.is_feasible) = true) ∧
    (select_thrusters r ts mw tw true = some out →
      out.length = ts.length) ∧
    select_thrusters r [] mw tw b = some [] := by
  refine ⟨?_, ?_, by simp [select_thrusters, select_go, sortPerfs]⟩
  · intro h
    rw [select_thrusters, Option.map_eq_some'] at h
    obtain ⟨pre, hgo, hout⟩ := h
    rw [← hout, List.all_eq_true]
    intro p hp
    exact select_go_feasible_false hgo p ((sortPerfs_perm pre).mem_iff.mp hp)
  · intro h
    rw [select_thrusters, Option.map_eq_some'] at h
    obtain ⟨pre, hgo, hout⟩ := h
    rw [← hout, (sortPerfs_perm pre).length_eq]
    exact select_go_length_true hgo

/-- Witness for C6 on concrete normal runs. -/
theorem C6_filtering_witness :
    (select_thrusters goodMission [goodThruster] 0.4 0.6 false =
        some [goodPerf] ∧
      [goodPerf].all (fun p => p.is_feasible) = true) ∧
    (select_thrusters goodMission [goodThruster] 0.4 0.6 true =
        some [goodPerf] ∧
      [goodPerf].length = [goodThruster].length) ∧
    select_thrusters goodMission [] 0.4 0.6 true = some [] :=
  ⟨⟨select_good_false,
    (C6_filtering goodMission [goodThruster] 0.4 0.6 true [goodPerf]).1
      select_good_false⟩,
   ⟨select_good_true,
    (C6_filtering goodMission [goodThruster] 0.4 0.6 true [goodPerf]).2.1
      select_good_true⟩,
   (C6_filtering goodMission [] 0.4 0.6 true []).2.2⟩

/-- C7: every record returned by `evaluate_thruster` carries
mass_score = total_mass / mass_budget, time_score = duration / 365 and
combined_score = mass_weight * mass_score + time_weight * time_score,
where total mass and duration come from `calculate_mass_breakdown` and
`calculate_mission_duration` on the same inputs (the float divisions are
stated through the `Option`-valued division). -/
theorem C7_scoring (t : Thruster) (r : MissionRequirements) (mw tw : ℝ)
    (perf : ThrusterPerformance) (d : ℝ) (pm tm fr md : F)
    (hbd : calculate_mass_breakdown t r = some (d, pm, tm, fr))
    (hmd : calculate_mission_duration t.thrust_N t.isp_s pm = some md)
    (h : evaluate_thruster t r mw tw = some perf) :
    perf.total_mass_kg = tm ∧
    perf.mission_duration_days = md ∧
    F.div tm (F.fin r.mass_budget_kg) = some perf.mass_score ∧
    F.div md (F.fin 365) = some perf.time_score ∧
    perf.combined_score =
      F.add (F.mul (F.fin mw) perf.mass_score)
        (F.mul (F.fin tw) perf.time_score) := by
  obtain ⟨d', pm', tm', fr', md', nb, feas, ms, ts, hbd', hmd', hnb, hfeas,
    hms, hts, hperf⟩ := evaluate_some_elim h
  rw [hbd] at hbd'
  obtain ⟨rfl, rfl, rfl, rfl⟩ :
      d = d' ∧ pm = pm' ∧ tm = tm' ∧ fr = fr' := by
    have := Option.some.inj hbd'
    simpa [Prod.ext_iff] using this
  rw [hmd] at hmd'
  obtain rfl : md = md' := Option.some.inj hmd'
  subst hperf
  exact ⟨rfl, rfl, hms, hts, rfl⟩

/-- Witness for C7 on a concrete normal run. -/
theorem C7_scoring_witness :
    evaluate_thruster goodThruster goodMission 0.4 0.6 = some goodPerf ∧
    goodPerf.total_mass_kg = F.fin (totalFin goodThruster goodMission) ∧
    goodPerf.mission_duration_days =
      F.fin (durationFin goodThruster goodMission) ∧
    F.div (F.fin (totalFin goodThruster goodMission))
      (F.fin goodMission.mass_budget_kg) = some goodPerf.mass_score ∧
    F.div (F.fin (durationFin goodThruster goodMission)) (F.fin 365) =
      some goodPerf.time_score ∧
    goodPerf.combined_score =
      F.add (F.mul (F.fin 0.4) goodPerf.mass_score)
        (F.mul (F.fin 0.6) goodPerf.time_score) :=
  ⟨evaluate_good,
   C7_scoring goodThruster goodMission 0.4 0.6 goodPerf
     (dryMassWith goodThruster goodMission)
     (F.fin (propFin goodThruster goodMission))
     (F.fin (totalFin goodThruster goodMission))
     (F.fin (propFin goodThruster goodMission /
       totalFin goodThruster goodMission))
     (F.fin (durationFin goodThruster goodMission))
     breakdown_good duration_good evaluate_good⟩

/-- C8: with dry mass and Isp fixed positive, the propellant mass is
strictly increasing in delta-v; with dry mass and a positive delta-v
fixed, it is strictly decreasing in Isp over positive Isp (stated via the
float strict comparison). -/
theorem C8_monotonicity (dv1 dv2 dv isp isp1 isp2 dry : ℝ) :
    (0 < isp → 0 < dry → dv1 < dv2 →
      F.blt (calculate_propellant_mass dv1 isp dry)
        (calculate_propellant_mass dv2 isp dry) = true) ∧
    (0 < dry → 0 < dv → 0 < isp1 → isp1 < isp2 →
      F.blt (calculate_propellant_mass dv isp2 dry)
        (calculate_propellant_mass dv isp1 dry) = true) := by
  have hG : (0:ℝ) < G0 := by norm_num [G0]
  constructor
  · intro hisp hdry hdv
    have hcond : ¬(isp ≤ 0 ∨ dry ≤ 0) := by
      push_neg
      exact ⟨hisp, hdry⟩
    simp only [calculate_propellant_mass, if_neg hcond, F.blt,
      decide_eq_true_eq]
    have hden : 0 < isp * G0 := mul_pos hisp hG
    have hexp : Real.exp (dv1 / (isp * G0)) < Real.exp (dv2 / (isp * G0)) := by
      apply Real.exp_lt_exp.mpr
      exact div_lt_div_of_pos_right hdv hden
    nlinarith
  · intro hdry hdv hisp1 hlt
    have hcond1 : ¬(isp1 ≤ 0 ∨ dry ≤ 0) := by
      push_neg
      exact ⟨hisp1, hdry⟩
    have hcond2 : ¬(isp2 ≤ 0 ∨ dry ≤ 0) := by
      push_neg
      exact ⟨lt_trans hisp1 hlt, hdry⟩
    simp only [calculate_propellant_mass, if_neg hcond1, if_neg hcond2,
      F.blt, decide_eq_true_eq]
    have hden1 : 0 < isp1 * G0 := mul_pos hisp1 hG
    have hden2 : isp1 * G0 < isp2 * G0 := by nlinarith
    have harg : dv / (isp2 * G0) < dv / (isp1 * G0) :=
      div_lt_div_of_pos_left hdv hden1 hden2
    have hexp : Real.exp (dv / (isp2 * G0)) < Real.exp (dv / (isp1 * G0)) :=
      Real.exp_lt_exp.mpr harg
    nlinarith

/-- Witness for C8 at concrete inputs. -/
theorem C8_monotonicity_witness :
    F.blt (calculate_propellant_mass 1 2 3)
      (calculate_propellant_mass 2 2 3) = true ∧
    F.blt (calculate_propellant_mass 1 3 3)
      (calculate_propellant_mass 1 2 3) = true :=
  ⟨(C8_monotonicity 1 2 1 2 2 3 3).1 (by norm_num) (by norm_num)
    (by norm_num),
   (C8_monotonicity 1 2 1 2 2 3 3).2 (by norm_num) (by norm_num)
    (by norm_num) (by norm_num)⟩

/-- C9 counterexample: the claim asserts that for every input
`select_thrusters` builds and returns a fresh result list, but with a
zero-thrust candidate the mission duration is infinite, the burn-count
`int()` conversion raises, and no list is returned. -/
theorem C9_counterexample :
    select_thrusters mission1 [badThrustThruster] 0.4 0.6 false = none := by
  simp [select_thrusters, select_go, evaluate_badThrust_none]

/-- C9 (amended): whenever `select_thrusters` returns normally, the
returned list is a fresh permutation of the kept evaluation records, whose
thruster fields are exactly elements of the input list, taken unmodified
and in input order before sorting; the model is pure, so the input list
itself is unchanged by construction. -/
theorem C9_frame (r : MissionRequirements) (ts : List Thruster)
    (mw tw : ℝ) (b : Bool) (out pre : List ThrusterPerformance)
    (hgo : select_go r ts mw tw b = some pre)
    (hsel : select_thrusters r ts mw tw b = some out) :
    out.Perm pre ∧
    (out.map (fun p => p.thruster)).Perm (pre.map (fun p => p.thruster)) ∧
    (pre.map (fun p => p.thruster)).Sublist ts ∧
    ∀ p ∈ out, p.thruster ∈ ts := by
  have hout : out = sortPerfs pre := by
    rw [select_thrusters, hgo] at hsel
    exact (Option.some.inj hsel).symm
  have hperm : out.Perm pre := hout ▸ sortPerfs_perm pre
  refine ⟨hperm, hperm.map _, select_go_thruster_sublist hgo, ?_⟩
  intro p hp
  have hp' : p ∈ pre := hperm.mem_iff.mp hp
  exact (select_go_thruster_sublist hgo).subset
    (List.mem_map_of_mem _ hp')

/-- Witness for C9 on a concrete normal run. -/
theorem C9_frame_witness :
    select_go goodMission [goodThruster] 0.4 0.6 true = some [goodPerf] ∧
    select_thrusters goodMission [goodThruster] 0.4 0.6 true =
      some [goodPerf] ∧
    ([goodPerf].Perm [goodPerf] ∧
      ([goodPerf].map (fun p => p.thruster)).Perm
        ([goodPerf].map (fun p => p.thruster)) ∧
      ([goodPerf].map (fun p => p.thruster)).Sublist [goodThruster] ∧
      ∀ p ∈ [goodPerf], p.thruster ∈ [goodThruster]) :=
  ⟨select_go_good_true, select_good_true,
   C9_frame goodMission [goodThruster] 0.4 0.6 true [goodPerf] [goodPerf]
     select_go_good_true select_good_true⟩

/-- C10: `check_feasibility` is total — it returns normally on every
input, including degenerate ones — with at most six reasons, at most one
per check (the kind indices of the collected reasons are pairwise
distinct). -/
theorem C10_check_feasibility_safe (t : Thruster)
    (r : MissionRequirements) :
    ∃ feas reasons, check_feasibility t r = some (feas, reasons) ∧
      reasons.length ≤ 6 ∧ (reasons.map Reason.kindIdx).Nodup := by
  obtain ⟨d, pm, tm, fr, h⟩ := mass_breakdown_isSome t r
  refine ⟨_, _, check_feasibility_eq t r d pm tm fr h, ?_, ?_⟩
  · unfold reasonList
    split_ifs <;> simp
  · unfold reasonList
    split_ifs <;> simp [Reason.kindIdx]

end ThrustSelector
